import Mathlib

/-!
Shallow embedding of `packages/angular_devkit/build_angular/src/protractor/index.ts`.

The source wires the Protractor end-to-end runner into the architect task
pipeline: `ProtractorBuilder.run` first rejects configurations that set both
`devServerTarget` and `baseUrl`, then runs a strictly sequential rxjs chain
`of(null) |> concatMap(devServer?) |> concatMap(webdriverUpdate?) |>
concatMap(runProtractor) |> take(1)`.

External collaborators (the architect, the dev-server builder, module
resolution, the forked protractor process, the `url` node module and path
utilities) are modelled as a stub environment `Env`; the pipeline itself is
interpreted into an explicit effect trace plus the (mutated) options record
and the observable output after `take(1)`.  Observables are modelled as a
finite list of emitted events optionally terminated by an error
(`Obs`), and the `take(1)` laziness is reflected by interpreting the chain
with early exit: effects stop occurring once the first terminal event has
been produced.
-/

/-- JavaScript truthiness of a string: the empty string is falsy. -/
def strTruthy (s : String) : Bool := s != ""

/-- JavaScript truthiness of an optional string field (`undefined` is falsy,
`""` is falsy). -/
def optStrTruthy : Option String → Bool
  | none => false
  | some s => strTruthy s

/-- Result payload reported by the launched dev server (external
`DevServerResult`): the bound port, plus the address the server actually
bound to (the source only ever reads `result.port`). -/
structure DevServerResult where
  port : Nat
  address : String
  deriving DecidableEq, Repr

/-- A build event emitted by a builder: a success flag and, for the
dev server, an optional result payload. -/
structure BuildEvent where
  success : Bool
  result : Option DevServerResult
  deriving DecidableEq, Repr

/-- A finite observable: the events it emits in order, then either completion
(`err = none`) or an error (`err = some e`). -/
structure Obs (α : Type) where
  events : List α
  err : Option String
  deriving DecidableEq, Repr

/-- The options record of the dev-server target as resolved by the architect
(the fields the protractor builder reads: `publicHost` and `ssl`). -/
structure DevServerTargetOptions where
  publicHost : Option String
  ssl : Bool
  deriving DecidableEq, Repr

/-- `ProtractorBuilderOptions` from the source (lines 26-36). -/
structure ProtractorBuilderOptions where
  protractorConfig : String
  devServerTarget : Option String
  specs : List String
  suite : Option String
  elementExplorer : Bool
  webdriverUpdate : Bool
  port : Option Nat
  host : String
  baseUrl : String
  deriving DecidableEq, Repr

/-- The secondary configuration object handed to the forked protractor
process (`additionalProtractorConfig`, source lines 147-152). -/
structure AdditionalProtractorConfig where
  elementExplorer : Bool
  baseUrl : String
  specs : Option (List String)
  suite : Option String
  deriving DecidableEq, Repr

/-- Deep import path of the webdriver-manager update command
(source line 117). -/
def webdriverDeepImport : String := "webdriver-manager/built/lib/cmds/update"

/-- The nested probe path, under protractor's own node_modules
(source line 123). -/
def nestedWebdriverImport : String := "protractor/node_modules/" ++ webdriverDeepImport

/-- Observable side effects of a pipeline run, in the order they occur. -/
inductive Effect where
  /-- `_startDevServer` resolved the dev-server target and subscribed to the
  dev-server builder (source lines 68-88). -/
  | resolveDevServerTarget (target : String)
  /-- the tap wrote the computed base URL back into the shared options
  (source line 111). -/
  | setBaseUrl (u : String)
  /-- `requireProjectModule` was attempted for the given module spec
  (source lines 122-126). -/
  | probeWebdriver (spec : String)
  /-- `webdriverUpdate.program.run({standalone, gecko, quiet})` was invoked
  (source lines 139-143). -/
  | runWebdriverUpdate (standalone : Bool) (gecko : Bool) (quiet : Bool)
  /-- `runModuleAsObservableFork` launched the protractor subprocess with the
  resolved config path and the secondary configuration (source lines 158-165). -/
  | forkProtractor (configPath : String) (cfg : AdditionalProtractorConfig)
  deriving DecidableEq, Repr

/-- Stubbed behaviour of the external collaborators for one run. -/
structure Env where
  /-- options of the resolved dev-server target (`builderConfig.options`). -/
  devServerOptions : DevServerTargetOptions
  /-- what the dev-server chain (description, validation, builder run)
  emits; a validation error is an `Obs` with no events and an error. -/
  devServer : Obs BuildEvent
  /-- whether `protractor/node_modules/webdriver-manager/...` resolves. -/
  nestedWebdriverResolves : Bool
  /-- whether top-level `webdriver-manager/...` resolves. -/
  topWebdriverResolves : Bool
  /-- what `from(webdriverUpdate.program.run(...))` emits. -/
  webdriverUpdateEvents : Obs Unit
  /-- what the forked protractor process emits. -/
  protractor : Obs BuildEvent
  deriving Repr

/-- Model of `requireProjectModule(getSystemPath(projectRoot), spec)`:
resolves (`true`) or throws (`false`), per the stub environment. -/
def requireProjectModule (env : Env) (spec : String) : Bool :=
  if spec = nestedWebdriverImport then env.nestedWebdriverResolves
  else if spec = webdriverDeepImport then env.topWebdriverResolves
  else false

/-- Model of `getSystemPath(resolve(root, normalize(p)))` from the external
core path utilities: joining the root with the relative path. -/
def resolvePath (root p : String) : String := root ++ "/" ++ p

/-- Model of the external `url` module's `url.format(url.parse(s))` round
trip on a scheme-bearing URL string: the identity. -/
def urlParseThenFormat (s : String) : String := s

/-- Does the string match `/^\w+:\/\//`: one or more word characters
followed by `://` at the start? -/
def isWordChar (c : Char) : Bool := c.isAlphanum || c = '_'

/-- Tail of the scheme regex match: word characters until a literal `://`. -/
def hasSchemeAux : List Char → Bool
  | ':' :: '/' :: '/' :: _ => true
  | c :: rest => isWordChar c && hasSchemeAux rest
  | [] => false

/-- `/^\w+:\/\//.test s` (source line 94). -/
def hasScheme (s : String) : Bool :=
  match s.toList with
  | [] => false
  | c :: rest => isWordChar c && hasSchemeAux rest

/-- `url.format({protocol, hostname, port})` on the object built at source
lines 104-108: scheme from the ssl flag, the hostname, and the reported
port when a result payload is present. -/
def synthesizeUrl (ssl : Bool) (host : String) (result : Option DevServerResult) : String :=
  (if ssl then "https" else "http") ++ "://" ++ host ++
    (match result with
     | some r => ":" ++ toString r.port
     | none => "")

/-- The base-URL computation of the readiness tap (source lines 90-108):
a truthy `publicHost` is used verbatim, scheme-prefixed when it lacks one;
otherwise the URL is synthesized from ssl, the *pipeline's* host option and
the reported port. -/
def computeBaseUrl (dsOpts : DevServerTargetOptions) (host : String)
    (result : Option DevServerResult) : String :=
  match dsOpts.publicHost with
  | some ph =>
    if strTruthy ph then
      let ph2 := if hasScheme ph then ph
        else (if dsOpts.ssl then "https" else "http") ++ "://" ++ ph
      urlParseThenFormat ph2
    else synthesizeUrl dsOpts.ssl host result
  | none => synthesizeUrl dsOpts.ssl host result

/-- The `tap` applied to each dev-server build event (source lines 85-112):
on success, compute the base URL and mutate `options.baseUrl`; on a failed
event, return early without touching the options. -/
def devServerTap (env : Env) (options : ProtractorBuilderOptions)
    (ev : BuildEvent) : List Effect × ProtractorBuilderOptions :=
  if ev.success then
    let u := computeBaseUrl env.devServerOptions options.host ev.result
    ([Effect.setBaseUrl u], { options with baseUrl := u })
  else ([], options)

/-- Error thrown when neither webdriver-manager layout resolves
(source lines 128-131). -/
def webdriverNotFoundMessage : String :=
  "Cannot automatically find webdriver-manager to update.\n" ++
  "Update webdriver-manager manually and run 'ng e2e --no-webdriver-update' instead."

/-- `_updateWebdriver` (source lines 115-144): probe the nested layout, fall
back to the top-level layout, throw when both fail; on success run the update
entry point with the fixed `{standalone: false, gecko: false, quiet: true}`. -/
def updateWebdriverStage (env : Env) : List Effect × Obs Unit :=
  let probeNested := Effect.probeWebdriver nestedWebdriverImport
  if requireProjectModule env nestedWebdriverImport then
    ([probeNested, Effect.runWebdriverUpdate false false true], env.webdriverUpdateEvents)
  else
    let probeTop := Effect.probeWebdriver webdriverDeepImport
    if requireProjectModule env webdriverDeepImport then
      ([probeNested, probeTop, Effect.runWebdriverUpdate false false true],
       env.webdriverUpdateEvents)
    else
      ([probeNested, probeTop], ⟨[], some webdriverNotFoundMessage⟩)

/-- `additionalProtractorConfig` (source lines 147-152): `specs` is passed
only when non-empty (JS truthiness of `options.specs.length`). -/
def mkAdditionalProtractorConfig (options : ProtractorBuilderOptions) :
    AdditionalProtractorConfig :=
  { elementExplorer := options.elementExplorer
    baseUrl := options.baseUrl
    specs := if options.specs.length = 0 then none else some options.specs
    suite := options.suite }

/-- `_runProtractor` (source lines 146-165): fork the protractor launcher
with the resolved config path and the secondary configuration; its output is
whatever the subprocess observable emits. -/
def runProtractorStage (env : Env) (root : String)
    (options : ProtractorBuilderOptions) : List Effect × Obs BuildEvent :=
  ([Effect.forkProtractor (resolvePath root options.protractorConfig)
      (mkAdditionalProtractorConfig options)], env.protractor)

/-- Drive the final `concatMap(() => this._runProtractor(root, options))`
over the events of the previous stage, under the downstream `take(1)`:
each incoming event forks protractor once; the first event the fork emits
terminates the whole pipeline (later incoming events are never processed),
an error from the fork terminates it with that error. -/
def stage3Loop (env : Env) (root : String) (options : ProtractorBuilderOptions) :
    List Unit → List Effect × Obs BuildEvent
  | [] => ([], ⟨[], none⟩)
  | _ :: rest =>
    let s := runProtractorStage env root options
    match s.2.events with
    | e :: _ => (s.1, ⟨[e], none⟩)
    | [] =>
      match s.2.err with
      | some e => (s.1, ⟨[], some e⟩)
      | none =>
        let r := stage3Loop env root options rest
        (s.1 ++ r.1, r.2)

/-- Stages 2 and 3 for one event of stage 1
(`concatMap(() => options.webdriverUpdate ? _updateWebdriver : of(null))`
followed by the protractor stage): when the update step is disabled the
single `of(null)` event goes straight to the protractor stage. When stage 3
produces neither an event nor an error, an error of the update observable
propagates. -/
def processAfterDevStage (env : Env) (root : String)
    (options : ProtractorBuilderOptions) : List Effect × Obs BuildEvent :=
  if options.webdriverUpdate then
    let s2 := updateWebdriverStage env
    let s3 := stage3Loop env root options s2.2.events
    if s3.2.events.isEmpty && s3.2.err.isNone then
      (s2.1 ++ s3.1, ⟨[], s2.2.err⟩)
    else (s2.1 ++ s3.1, s3.2)
  else
    stage3Loop env root options [()]

/-- Drive the pipeline over the dev-server build events in order: each event
is tapped (possibly mutating the options), then flows through stages 2 and 3
with the mutated options; processing stops at the first terminal event or
error (`take(1)`), and after the last event the dev-server observable's own
error, if any, propagates. Returns the accumulated effects, the final
options, and the pipeline output. -/
def processDevEvents (env : Env) (root : String) :
    ProtractorBuilderOptions → List BuildEvent →
    List Effect × ProtractorBuilderOptions × Obs BuildEvent
  | options, [] => ([], options, ⟨[], env.devServer.err⟩)
  | options, ev :: rest =>
    let t := devServerTap env options ev
    let s := processAfterDevStage env root t.2
    if s.2.events.isEmpty && s.2.err.isNone then
      let r := processDevEvents env root t.2 rest
      (t.1 ++ s.1 ++ r.1, r.2.1, r.2.2)
    else (t.1 ++ s.1, t.2, s.2)

/-- Outcome of a successful subscription to the pipeline: the effect trace,
the options record after any mutation, and the observable output after
`take(1)`. -/
structure RunResult where
  trace : List Effect
  finalOptions : ProtractorBuilderOptions
  output : Obs BuildEvent
  deriving DecidableEq, Repr

/-- The error thrown when `devServerTarget` and `baseUrl` are both set
(source lines 50-54, after `stripIndents`). -/
def baseUrlConflictMessage : String :=
  "The 'baseUrl' option cannot be used with 'devServerTarget'.\n" ++
  "When present, 'devServerTarget' will be used to automatically setup 'baseUrl' for Protractor."

/-- `ProtractorBuilder.run` (source lines 42-63): throw on the
`devServerTarget`/`baseUrl` conflict (JS truthiness on both), otherwise run
the three-stage chain; the dev-server stage runs only when `devServerTarget`
is truthy, in which case the target is resolved and its build events are
processed. -/
def ProtractorBuilder.run (env : Env) (root : String)
    (options : ProtractorBuilderOptions) : Except String RunResult :=
  if optStrTruthy options.devServerTarget && strTruthy options.baseUrl then
    Except.error baseUrlConflictMessage
  else if optStrTruthy options.devServerTarget then
    let target := options.devServerTarget.getD ""
    let r := processDevEvents env root options env.devServer.events
    Except.ok ⟨Effect.resolveDevServerTarget target :: r.1, r.2.1, r.2.2⟩
  else
    let r := processAfterDevStage env root options
    Except.ok ⟨r.1, options, r.2⟩

/-! ### Helper lemmas about the stage interpreters -/

/-- Updating `baseUrl` twice keeps only the second update. -/
lemma options_baseUrl_update_update (o : ProtractorBuilderOptions) (a b : String) :
    ({ { o with baseUrl := a } with baseUrl := b } : ProtractorBuilderOptions) =
      { o with baseUrl := b } := rfl

/-- Re-assigning the current `baseUrl` is the identity. -/
lemma options_baseUrl_update_self (o : ProtractorBuilderOptions) :
    ({ o with baseUrl := o.baseUrl } : ProtractorBuilderOptions) = o := rfl

lemma requireProjectModule_nested (env : Env) :
    requireProjectModule env nestedWebdriverImport = env.nestedWebdriverResolves := by
  simp [requireProjectModule]

lemma requireProjectModule_top (env : Env) :
    requireProjectModule env webdriverDeepImport = env.topWebdriverResolves := by
  have h : webdriverDeepImport ≠ nestedWebdriverImport := by decide
  simp [requireProjectModule, h]

/-- Every effect of the final stage loop is the protractor fork with the
resolved config path and the secondary configuration of the options in force. -/
lemma stage3Loop_effect_eq (env : Env) (root : String)
    (options : ProtractorBuilderOptions) :
    ∀ (l : List Unit) {e : Effect}, e ∈ (stage3Loop env root options l).1 →
      e = Effect.forkProtractor (resolvePath root options.protractorConfig)
            (mkAdditionalProtractorConfig options) := by
  intro l
  induction l with
  | nil => intro e h; simp [stage3Loop] at h
  | cons x rest ih =>
    intro e h
    simp only [stage3Loop, runProtractorStage] at h
    cases hp : env.protractor.events with
    | cons a as => rw [hp] at h; simp at h; simp [h]
    | nil =>
      rw [hp] at h
      cases he : env.protractor.err with
      | some m => rw [he] at h; simp at h; simp [h]
      | none =>
        rw [he] at h
        simp at h
        rcases h with h | h
        · simp [h]
        · exact ih h

/-- The final stage loop emits at most one event. -/
lemma stage3Loop_output_len (env : Env) (root : String)
    (options : ProtractorBuilderOptions) :
    ∀ l, (stage3Loop env root options l).2.events.length ≤ 1 := by
  intro l
  induction l with
  | nil => simp [stage3Loop]
  | cons x rest ih =>
    simp only [stage3Loop, runProtractorStage]
    cases hp : env.protractor.events with
    | cons a as => simp
    | nil =>
      cases he : env.protractor.err with
      | some m => simp
      | none => simpa using ih

/-- When the incoming stage emits at least one event, the protractor fork
effect is recorded. -/
lemma stage3Loop_fork_mem (env : Env) (root : String)
    (options : ProtractorBuilderOptions) (x : Unit) (l : List Unit) :
    Effect.forkProtractor (resolvePath root options.protractorConfig)
        (mkAdditionalProtractorConfig options) ∈
      (stage3Loop env root options (x :: l)).1 := by
  simp only [stage3Loop, runProtractorStage]
  cases hp : env.protractor.events with
  | cons a as => simp
  | nil =>
    cases he : env.protractor.err with
    | some m => simp
    | none => simp

/-- Every effect of the webdriver-update stage is one of the two probes or
the fixed-flag update invocation. -/
lemma updateWebdriverStage_effect (env : Env) {e : Effect}
    (h : e ∈ (updateWebdriverStage env).1) :
    e = Effect.probeWebdriver nestedWebdriverImport ∨
    e = Effect.probeWebdriver webdriverDeepImport ∨
    e = Effect.runWebdriverUpdate false false true := by
  simp only [updateWebdriverStage, requireProjectModule_nested,
    requireProjectModule_top] at h
  cases hn : env.nestedWebdriverResolves <;>
    cases ht : env.topWebdriverResolves <;>
    simp [hn, ht] at h <;> tauto

/-- Phase of an effect inside the three-stage pipeline: dev-server effects,
then webdriver-update effects, then the protractor fork. -/
def stagePhase : Effect → Nat
  | .resolveDevServerTarget _ => 0
  | .setBaseUrl _ => 0
  | .probeWebdriver _ => 1
  | .runWebdriverUpdate _ _ _ => 1
  | .forkProtractor _ _ => 2

/-- Ordering relation on effects by pipeline phase. -/
def phaseLE (a b : Effect) : Prop := stagePhase a ≤ stagePhase b

instance : DecidableRel phaseLE := fun a b => Nat.decLe (stagePhase a) (stagePhase b)

lemma pairwise_phaseLE_of_const {l : List Effect} {c : Nat}
    (h : ∀ e ∈ l, stagePhase e = c) : List.Pairwise phaseLE l :=
  List.pairwise_of_forall_mem_list fun a ha b hb => by
    unfold phaseLE; rw [h a ha, h b hb]

/-- Every effect of stages 2 and 3 is either (with the update step enabled)
a probe or the fixed update invocation, or the protractor fork with the
options in force. -/
lemma processAfterDevStage_effect (env : Env) (root : String)
    (options : ProtractorBuilderOptions) {e : Effect}
    (h : e ∈ (processAfterDevStage env root options).1) :
    (options.webdriverUpdate = true ∧
      (e = Effect.probeWebdriver nestedWebdriverImport ∨
       e = Effect.probeWebdriver webdriverDeepImport ∨
       e = Effect.runWebdriverUpdate false false true)) ∨
    e = Effect.forkProtractor (resolvePath root options.protractorConfig)
          (mkAdditionalProtractorConfig options) := by
  unfold processAfterDevStage at h
  cases hw : options.webdriverUpdate with
  | false =>
    rw [hw] at h; simp at h
    exact Or.inr (stage3Loop_effect_eq env root options _ h)
  | true =>
    rw [hw] at h; simp at h
    split at h <;> simp at h <;>
      rcases h with h | h
    · exact Or.inl ⟨rfl, updateWebdriverStage_effect env h⟩
    · exact Or.inr (stage3Loop_effect_eq env root options _ h)
    · exact Or.inl ⟨rfl, updateWebdriverStage_effect env h⟩
    · exact Or.inr (stage3Loop_effect_eq env root options _ h)

/-- Stages 2 and 3 emit at most one event. -/
lemma processAfterDevStage_output_len (env : Env) (root : String)
    (options : ProtractorBuilderOptions) :
    (processAfterDevStage env root options).2.events.length ≤ 1 := by
  unfold processAfterDevStage
  cases hw : options.webdriverUpdate with
  | false => simpa using stage3Loop_output_len env root options [()]
  | true =>
    simp only [Bool.true_eq, if_true]
    split
    · simp
    · simpa using stage3Loop_output_len env root options
        (updateWebdriverStage env).2.events

/-- The readiness tap either leaves the options alone (failed event) or
records exactly one base-URL write and updates only `baseUrl`. -/
lemma devServerTap_cases (env : Env) (options : ProtractorBuilderOptions)
    (ev : BuildEvent) :
    devServerTap env options ev = ([], options) ∨
    ∃ u, devServerTap env options ev =
      ([Effect.setBaseUrl u], { options with baseUrl := u }) := by
  unfold devServerTap
  split
  · exact Or.inr ⟨_, rfl⟩
  · exact Or.inl rfl

/-- Driving the pipeline only ever mutates the `baseUrl` field of the
options. -/
lemma processDevEvents_finalOptions (env : Env) (root : String) :
    ∀ (evs : List BuildEvent) (options : ProtractorBuilderOptions),
      (processDevEvents env root options evs).2.1 =
        { options with baseUrl := (processDevEvents env root options evs).2.1.baseUrl } := by
  intro evs
  induction evs with
  | nil => intro options; simp [processDevEvents]
  | cons ev rest ih =>
    intro options
    rcases devServerTap_cases env options ev with ht | ⟨u, ht⟩
    · simp only [processDevEvents, ht]
      split
      · exact ih options
      · rfl
    · simp only [processDevEvents, ht]
      split
      · exact ih { options with baseUrl := u }
      · rfl

/-- The pipeline emits at most one event. -/
lemma processDevEvents_output_len (env : Env) (root : String) :
    ∀ (evs : List BuildEvent) (options : ProtractorBuilderOptions),
      (processDevEvents env root options evs).2.2.events.length ≤ 1 := by
  intro evs
  induction evs with
  | nil => intro options; simp [processDevEvents]
  | cons ev rest ih =>
    intro options
    simp only [processDevEvents]
    split
    · exact ih _
    · exact processAfterDevStage_output_len env root _

/-- The trace of one processed dev-server event: the tap effects, then the
effects of stages 2 and 3, then (when no terminal event or error was
produced) the trace of the remaining events. -/
lemma processDevEvents_trace_cons (env : Env) (root : String)
    (options : ProtractorBuilderOptions) (ev : BuildEvent) (rest : List BuildEvent) :
    (processDevEvents env root options (ev :: rest)).1 =
      (devServerTap env options ev).1 ++
        (processAfterDevStage env root (devServerTap env options ev).2).1 ++
        (if ((processAfterDevStage env root (devServerTap env options ev).2).2.events.isEmpty &&
              (processAfterDevStage env root (devServerTap env options ev).2).2.err.isNone) = true then
          (processDevEvents env root (devServerTap env options ev).2 rest).1
        else []) := by
  simp only [processDevEvents]
  split
  next _ => rfl
  next _ => rw [List.append_nil]

/-- Every effect the pipeline records is a base-URL write, one of the
webdriver-update effects (possible only when the update step is enabled), or
the protractor fork of an options record that differs from the initial one
at most in `baseUrl`. -/
lemma processDevEvents_effect (env : Env) (root : String) :
    ∀ (evs : List BuildEvent) (options : ProtractorBuilderOptions) {e : Effect},
      e ∈ (processDevEvents env root options evs).1 →
      (∃ u, e = Effect.setBaseUrl u) ∨
      (options.webdriverUpdate = true ∧
        (e = Effect.probeWebdriver nestedWebdriverImport ∨
         e = Effect.probeWebdriver webdriverDeepImport ∨
         e = Effect.runWebdriverUpdate false false true)) ∨
      (∃ o, e = Effect.forkProtractor (resolvePath root options.protractorConfig)
               (mkAdditionalProtractorConfig o) ∧
            o = { options with baseUrl := o.baseUrl }) := by
  intro evs
  induction evs with
  | nil => intro options e h; simp [processDevEvents] at h
  | cons ev rest ih =>
    intro options e h
    rw [processDevEvents_trace_cons] at h
    simp only [List.mem_append] at h
    have htap := devServerTap_cases env options ev
    rcases h with (h | h) | h
    · rcases htap with ht | ⟨u, ht⟩
      · rw [ht] at h; simp at h
      · rw [ht] at h; simp at h; exact Or.inl ⟨u, h⟩
    · rcases htap with ht | ⟨u, ht⟩ <;> rw [ht] at h
      · rcases processAfterDevStage_effect env root options h with h1 | h1
        · exact Or.inr (Or.inl h1)
        · exact Or.inr (Or.inr ⟨options, h1, rfl⟩)
      · rcases processAfterDevStage_effect env root { options with baseUrl := u } h with h1 | h1
        · exact Or.inr (Or.inl h1)
        · exact Or.inr (Or.inr ⟨{ options with baseUrl := u }, h1, rfl⟩)
    · split at h
      · rcases htap with ht | ⟨u, ht⟩ <;> rw [ht] at h
        · exact ih options h
        · exact ih { options with baseUrl := u } h
      · simp at h

/-- The base URL carried by any recorded protractor fork either is the
initial one or was written into the options by a recorded base-URL write. -/
lemma processDevEvents_fork_baseUrl (env : Env) (root : String) :
    ∀ (evs : List BuildEvent) (options : ProtractorBuilderOptions)
      {p : String} {cfg : AdditionalProtractorConfig},
      Effect.forkProtractor p cfg ∈ (processDevEvents env root options evs).1 →
      cfg.baseUrl = options.baseUrl ∨
      Effect.setBaseUrl cfg.baseUrl ∈ (processDevEvents env root options evs).1 := by
  intro evs
  induction evs with
  | nil => intro options p cfg h; simp [processDevEvents] at h
  | cons ev rest ih =>
    intro options p cfg h
    rw [processDevEvents_trace_cons] at h ⊢
    simp only [List.mem_append] at h ⊢
    rcases devServerTap_cases env options ev with ht | ⟨u, ht⟩ <;> rw [ht] at h ⊢
    · rcases h with (h | h) | h
      · simp at h
      · rcases processAfterDevStage_effect env root options h with ⟨_, h1 | h1 | h1⟩ | h1 <;>
          try simp at h1
        exact Or.inl (by rw [h1.2]; rfl)
      · split at h
        next hcond =>
          rw [if_pos hcond]
          rcases ih options h with h1 | h1
          · exact Or.inl h1
          · exact Or.inr (Or.inr h1)
        next hcond => simp at h
    · rcases h with (h | h) | h
      · simp at h
      · rcases processAfterDevStage_effect env root { options with baseUrl := u } h with
          ⟨_, h1 | h1 | h1⟩ | h1 <;> try simp at h1
        refine Or.inr (Or.inl (Or.inl ?_))
        rw [h1.2]
        simp [mkAdditionalProtractorConfig]
      · split at h
        next hcond =>
          rw [if_pos hcond]
          rcases ih { options with baseUrl := u } h with h1 | h1
          · refine Or.inr (Or.inl (Or.inl ?_))
            simp [h1]
          · exact Or.inr (Or.inr h1)
        next hcond => simp at h

lemma devServerTap_phase (env : Env) (options : ProtractorBuilderOptions)
    (ev : BuildEvent) :
    ∀ e ∈ (devServerTap env options ev).1, stagePhase e = 0 := by
  intro e h
  rcases devServerTap_cases env options ev with ht | ⟨u, ht⟩ <;> rw [ht] at h <;>
    simp at h
  rw [h]; rfl

lemma stage3Loop_phase (env : Env) (root : String)
    (options : ProtractorBuilderOptions) (l : List Unit) :
    ∀ e ∈ (stage3Loop env root options l).1, stagePhase e = 2 := by
  intro e h
  rw [stage3Loop_effect_eq env root options l h]; rfl

lemma updateWebdriverStage_phase (env : Env) :
    ∀ e ∈ (updateWebdriverStage env).1, stagePhase e = 1 := by
  intro e h
  rcases updateWebdriverStage_effect env h with h1 | h1 | h1 <;> rw [h1] <;> rfl

lemma processAfterDevStage_phase (env : Env) (root : String)
    (options : ProtractorBuilderOptions) :
    ∀ e ∈ (processAfterDevStage env root options).1, 1 ≤ stagePhase e := by
  intro e h
  rcases processAfterDevStage_effect env root options h with ⟨_, h1 | h1 | h1⟩ | h1 <;>
    rw [h1] <;> simp [stagePhase]

/-- Effects of stages 2 and 3 are phase ordered: probes and the update
invocation before any protractor fork. -/
lemma processAfterDevStage_pairwise (env : Env) (root : String)
    (options : ProtractorBuilderOptions) :
    List.Pairwise phaseLE (processAfterDevStage env root options).1 := by
  unfold processAfterDevStage
  cases hw : options.webdriverUpdate with
  | false =>
    simp only [Bool.false_eq_true, if_false]
    exact pairwise_phaseLE_of_const (stage3Loop_phase env root options [()])
  | true =>
    simp only [if_true]
    split <;>
      exact List.pairwise_append.mpr
        ⟨pairwise_phaseLE_of_const (updateWebdriverStage_phase env),
         pairwise_phaseLE_of_const (stage3Loop_phase env root options _),
         fun a ha b hb => by
           unfold phaseLE
           rw [updateWebdriverStage_phase env a ha, stage3Loop_phase env root options _ b hb]
           exact one_le_two⟩

/-- When the dev server emits a single readiness event, the whole processed
trace is phase ordered. -/
lemma processDevEvents_single_pairwise (env : Env) (root : String)
    (options : ProtractorBuilderOptions) (ev : BuildEvent) :
    List.Pairwise phaseLE (processDevEvents env root options [ev]).1 := by
  rw [processDevEvents_trace_cons]
  have hnil : (processDevEvents env root (devServerTap env options ev).2 []).1 = [] := rfl
  rw [hnil, ite_self, List.append_nil]
  refine List.pairwise_append.mpr
    ⟨pairwise_phaseLE_of_const (devServerTap_phase env options ev),
     processAfterDevStage_pairwise env root _,
     fun a ha b hb => ?_⟩
  unfold phaseLE
  rw [devServerTap_phase env options ev a ha]
  exact Nat.zero_le _

lemma strTruthy_of_ne {s : String} (h : s ≠ "") : strTruthy s = true := by
  simp [strTruthy, h]

lemma devServerTap_success (env : Env) (options : ProtractorBuilderOptions)
    {ev : BuildEvent} (hs : ev.success = true) :
    devServerTap env options ev =
      ([Effect.setBaseUrl (computeBaseUrl env.devServerOptions options.host ev.result)],
       { options with baseUrl := computeBaseUrl env.devServerOptions options.host ev.result }) := by
  unfold devServerTap
  rw [hs]
  simp

lemma devServerTap_failure (env : Env) (options : ProtractorBuilderOptions)
    {ev : BuildEvent} (hs : ev.success = false) :
    devServerTap env options ev = ([], options) := by
  unfold devServerTap
  rw [hs]
  simp

/-- After a single dev-server event, the final options are exactly what the
tap produced. -/
lemma processDevEvents_single_finalOptions (env : Env) (root : String)
    (options : ProtractorBuilderOptions) (ev : BuildEvent) :
    (processDevEvents env root options [ev]).2.1 = (devServerTap env options ev).2 := by
  simp only [processDevEvents]
  split
  · rfl
  · rfl

/-- Unfolding of the builder entry point when a dev-server target is set and
the conflict check passes. -/
lemma run_devServer_eq (env : Env) (root : String)
    (options : ProtractorBuilderOptions) {t : String}
    (hd : options.devServerTarget = some t) (ht : t ≠ "")
    (hb : strTruthy options.baseUrl = false) :
    ProtractorBuilder.run env root options =
      Except.ok ⟨Effect.resolveDevServerTarget t ::
          (processDevEvents env root options env.devServer.events).1,
        (processDevEvents env root options env.devServer.events).2.1,
        (processDevEvents env root options env.devServer.events).2.2⟩ := by
  unfold ProtractorBuilder.run
  rw [hd]
  simp [optStrTruthy, strTruthy_of_ne ht, hb]

/-- Unfolding of the builder entry point when the dev-server target is unset
(or the empty string): the dev-server stage is skipped. -/
lemma run_noDevServer_eq (env : Env) (root : String)
    (options : ProtractorBuilderOptions)
    (hd : optStrTruthy options.devServerTarget = false) :
    ProtractorBuilder.run env root options =
      Except.ok ⟨(processAfterDevStage env root options).1, options,
        (processAfterDevStage env root options).2⟩ := by
  unfold ProtractorBuilder.run
  simp [hd]

lemma computeBaseUrl_noPublicHost {dsOpts : DevServerTargetOptions}
    (host : String) (result : Option DevServerResult)
    (h : dsOpts.publicHost = none) :
    computeBaseUrl dsOpts host result = synthesizeUrl dsOpts.ssl host result := by
  unfold computeBaseUrl
  rw [h]

lemma synthesizeUrl_http_port (host : String) (r : DevServerResult) :
    synthesizeUrl false host (some r) = "http://" ++ host ++ ":" ++ toString r.port := by
  unfold synthesizeUrl
  simp [String.append_assoc]

/-! ### Claim theorems -/

/-- C1: for every configuration in which both devServerTarget and baseUrl
are set (truthy), pipeline invocation fails with the configuration-conflict
error before any stage runs and before any sub-task or process is started:
the entry point throws, producing no run result, hence no effect trace at
all and in particular no spawned process. -/
theorem protractor_C1 (env : Env) (root : String)
    (options : ProtractorBuilderOptions)
    (hd : optStrTruthy options.devServerTarget = true)
    (hb : strTruthy options.baseUrl = true) :
    ProtractorBuilder.run env root options = Except.error baseUrlConflictMessage := by
  unfold ProtractorBuilder.run
  rw [hd, hb]
  rfl

/-- Conflicting configuration: both devServerTarget and baseUrl set. -/
def optsConflict : ProtractorBuilderOptions :=
  ⟨"conf.js", some "app:serve", [], none, false, true, none, "localhost",
   "http://localhost:4200"⟩

/-- Environment whose dev server reports a failed build event, with the
nested webdriver-manager layout resolving and protractor reporting success. -/
def envFailedBuild : Env :=
  ⟨⟨none, false⟩, ⟨[⟨false, none⟩], none⟩, true, false, ⟨[()], none⟩,
   ⟨[⟨true, none⟩], none⟩⟩

theorem protractor_C1_witness :
    ProtractorBuilder.run envFailedBuild "root" optsConflict =
      Except.error baseUrlConflictMessage :=
  protractor_C1 envFailedBuild "root" optsConflict (by decide) (by decide)

/-- Options with a dev-server target, no baseUrl, webdriver update enabled. -/
def optsFailedBuild : ProtractorBuilderOptions :=
  ⟨"conf.js", some "app:serve", [], none, false, true, none, "localhost", ""⟩

/-- C2 counterexample: the dev-server stage emits a build event with
success false, yet the pipeline does not abort: the webdriver-manager probe
and update still run, the protractor subprocess is still forked, and the
terminal result is the protractor stage's success event rather than the
dev-server failure. This falsifies the claim that the first failing stage
short-circuits the pipeline. -/
theorem protractor_C2_counterexample :
    ProtractorBuilder.run envFailedBuild "root" optsFailedBuild =
      Except.ok ⟨[Effect.resolveDevServerTarget "app:serve",
        Effect.probeWebdriver nestedWebdriverImport,
        Effect.runWebdriverUpdate false false true,
        Effect.forkProtractor (resolvePath "root" "conf.js") ⟨false, "", none, none⟩],
        optsFailedBuild, ⟨[⟨true, none⟩], none⟩⟩ := by
  rfl

/-- C2 (amended): a failure that surfaces as a stream error in the
dev-server stage (for example target resolution or validation throwing)
before any build event aborts the pipeline: no webdriver-update effect, no
protractor fork, and the error is propagated as the single terminal result.
A build event with success false, by contrast, does not abort (see the
counterexample). -/
theorem protractor_C2 (env : Env) (root : String)
    (options : ProtractorBuilderOptions) (t msg : String)
    (hd : options.devServerTarget = some t) (ht : t ≠ "")
    (hb : options.baseUrl = "")
    (hev : env.devServer.events = []) (herr : env.devServer.err = some msg) :
    ProtractorBuilder.run env root options =
      Except.ok ⟨[Effect.resolveDevServerTarget t], options, ⟨[], some msg⟩⟩ := by
  rw [run_devServer_eq env root options hd ht (by rw [hb]; rfl), hev]
  simp [processDevEvents, herr]

/-- Environment whose dev-server chain errors before emitting any event. -/
def envDevErr : Env :=
  ⟨⟨none, false⟩, ⟨[], some "validation failed"⟩, true, false, ⟨[()], none⟩,
   ⟨[⟨true, none⟩], none⟩⟩

theorem protractor_C2_witness :
    ProtractorBuilder.run envDevErr "root" optsFailedBuild =
      Except.ok ⟨[Effect.resolveDevServerTarget "app:serve"], optsFailedBuild,
        ⟨[], some "validation failed"⟩⟩ :=
  protractor_C2 envDevErr "root" optsFailedBuild "app:serve" "validation failed"
    rfl (by decide) rfl rfl rfl

/-- C3: on a successful dev-server readiness event with no publicHost
override, the synthesized base URL uses the http scheme when ssl is unset,
the pipeline's original host option, and the reported port; the address the
service actually bound to (`addr`, universally quantified here) plays no
role. -/
theorem protractor_C3 (env : Env) (root : String)
    (options : ProtractorBuilderOptions) (ev : BuildEvent)
    (t addr : String) (port : Nat)
    (hd : options.devServerTarget = some t) (ht : t ≠ "")
    (hb : options.baseUrl = "")
    (hpub : env.devServerOptions.publicHost = none)
    (hssl : env.devServerOptions.ssl = false)
    (hev : env.devServer.events = [ev]) (hs : ev.success = true)
    (hr : ev.result = some ⟨port, addr⟩) :
    Except.map (fun r => r.finalOptions.baseUrl) (ProtractorBuilder.run env root options) =
      Except.ok ("http://" ++ options.host ++ ":" ++ toString port) := by
  rw [run_devServer_eq env root options hd ht (by rw [hb]; rfl), hev]
  simp only [Except.map]
  rw [processDevEvents_single_finalOptions, devServerTap_success env options hs]
  rw [computeBaseUrl_noPublicHost options.host ev.result hpub, hssl, hr]
  rw [synthesizeUrl_http_port options.host ⟨port, addr⟩]

/-- Options for the localhost scenario: dev-server target set, update step
disabled, host localhost. -/
def optsLocal : ProtractorBuilderOptions :=
  ⟨"conf.js", some "app:serve", [], none, false, false, none, "localhost", ""⟩

/-- Environment whose dev server reports success on port 4200, bound to an
address different from the requested host. -/
def envLocal : Env :=
  ⟨⟨none, false⟩, ⟨[⟨true, some ⟨4200, "127.0.0.1"⟩⟩], none⟩, false, false,
   ⟨[()], none⟩, ⟨[⟨true, none⟩], none⟩⟩

theorem protractor_C3_witness :
    Except.map (fun r => r.finalOptions.baseUrl)
        (ProtractorBuilder.run envLocal "root" optsLocal) =
      Except.ok "http://localhost:4200" :=
  (protractor_C3 envLocal "root" optsLocal ⟨true, some ⟨4200, "127.0.0.1"⟩⟩
      "app:serve" "127.0.0.1" 4200 rfl (by decide) rfl rfl rfl rfl rfl rfl).trans
    (congrArg Except.ok (by decide))

/-- C4: on a successful dev-server readiness event with an explicit
publicHost override, the override is used verbatim as the base address, with
a scheme prefixed only when the override does not already start with one;
the prefix is https exactly when the ssl flag is set and http otherwise. -/
theorem protractor_C4 (env : Env) (root : String)
    (options : ProtractorBuilderOptions) (ev : BuildEvent) (ph t : String)
    (hd : options.devServerTarget = some t) (ht : t ≠ "")
    (hb : options.baseUrl = "")
    (hpub : env.devServerOptions.publicHost = some ph) (hph : ph ≠ "")
    (hev : env.devServer.events = [ev]) (hs : ev.success = true) :
    Except.map (fun r => r.finalOptions.baseUrl) (ProtractorBuilder.run env root options) =
      Except.ok (if hasScheme ph then ph
        else (if env.devServerOptions.ssl then "https" else "http") ++ "://" ++ ph) := by
  rw [run_devServer_eq env root options hd ht (by rw [hb]; rfl), hev]
  simp only [Except.map]
  rw [processDevEvents_single_finalOptions, devServerTap_success env options hs]
  unfold computeBaseUrl
  rw [hpub]
  simp [strTruthy_of_ne hph, urlParseThenFormat]

/-- Environment supplying the publicHost override example.com with TLS off. -/
def envPublicHost : Env :=
  ⟨⟨some "example.com", false⟩, ⟨[⟨true, some ⟨4200, "127.0.0.1"⟩⟩], none⟩,
   false, false, ⟨[()], none⟩, ⟨[⟨true, none⟩], none⟩⟩

theorem protractor_C4_witness :
    Except.map (fun r => r.finalOptions.baseUrl)
        (ProtractorBuilder.run envPublicHost "root" optsLocal) =
      Except.ok "http://example.com" :=
  (protractor_C4 envPublicHost "root" optsLocal ⟨true, some ⟨4200, "127.0.0.1"⟩⟩
      "example.com" "app:serve" rfl (by decide) rfl rfl (by decide) rfl rfl).trans
    (congrArg Except.ok (by decide))

/-- Predicate picking out base-URL writes in a trace. -/
def isSetBaseUrlEffect : Effect → Bool
  | .setBaseUrl _ => true
  | _ => false

lemma processAfterDevStage_countP_setBaseUrl (env : Env) (root : String)
    (options : ProtractorBuilderOptions) :
    (processAfterDevStage env root options).1.countP isSetBaseUrlEffect = 0 := by
  rw [List.countP_eq_zero]
  intro e he
  rcases processAfterDevStage_effect env root options he with ⟨_, h1 | h1 | h1⟩ | h1 <;>
    rw [h1] <;> simp [isSetBaseUrlEffect]

/-- C5: with the dev server emitting its single readiness event (watch mode
is forced off), the pipeline writes the synthesized base URL into the shared
options exactly once when the event is successful, and zero times — leaving
the options untouched — when the event reports failure. -/
theorem protractor_C5 (env : Env) (root : String)
    (options : ProtractorBuilderOptions) (ev : BuildEvent) (t : String)
    (hd : options.devServerTarget = some t) (ht : t ≠ "")
    (hb : options.baseUrl = "")
    (hev : env.devServer.events = [ev]) :
    Except.map (fun r => r.trace.countP isSetBaseUrlEffect)
        (ProtractorBuilder.run env root options) =
      Except.ok (if ev.success = true then 1 else 0) ∧
    (ev.success = false →
      Except.map RunResult.finalOptions (ProtractorBuilder.run env root options) =
        Except.ok options) := by
  rw [run_devServer_eq env root options hd ht (by rw [hb]; rfl), hev]
  constructor
  · simp only [Except.map]
    rw [List.countP_cons]
    rw [processDevEvents_trace_cons,
      show (processDevEvents env root (devServerTap env options ev).2 []).1 = [] from rfl,
      ite_self, List.append_nil, List.countP_append,
      processAfterDevStage_countP_setBaseUrl]
    cases hs : ev.success
    · rw [devServerTap_failure env options hs]
      simp [isSetBaseUrlEffect]
    · rw [devServerTap_success env options hs]
      simp [isSetBaseUrlEffect, List.countP_cons]
  · intro hf
    simp only [Except.map]
    rw [processDevEvents_single_finalOptions, devServerTap_failure env options hf]

theorem protractor_C5_witness :
    Except.map (fun r => r.trace.countP isSetBaseUrlEffect)
        (ProtractorBuilder.run envLocal "root" optsLocal) = Except.ok 1 :=
  ((protractor_C5 envLocal "root" optsLocal ⟨true, some ⟨4200, "127.0.0.1"⟩⟩ "app:serve"
      rfl (by decide) rfl rfl).1).trans (congrArg Except.ok (by decide))

lemma processAfterDevStage_noUpdate (env : Env) (root : String)
    (options : ProtractorBuilderOptions) (hw : options.webdriverUpdate = false) :
    processAfterDevStage env root options = stage3Loop env root options [()] := by
  unfold processAfterDevStage
  rw [hw]
  simp

/-- C6: stages execute strictly in pipeline order (the effect phases along
the trace are non-decreasing, given the single readiness event that
watch-off dev serving produces); a stage whose condition is false is skipped
with no side effect — a disabled update stage records no webdriver-manager
probe and no update invocation, an unset devServerTarget records no target
resolution and no base-URL write while the protractor stage still runs — and
the pipeline emits at most the one terminal event that take(1) lets
through. -/
theorem protractor_C6 (env : Env) (root : String)
    (options : ProtractorBuilderOptions) (r : RunResult)
    (hlen : env.devServer.events.length ≤ 1)
    (hok : ProtractorBuilder.run env root options = Except.ok r) :
    List.Pairwise phaseLE r.trace ∧
    (options.webdriverUpdate = false →
      ∀ s a g q, Effect.probeWebdriver s ∉ r.trace ∧
        Effect.runWebdriverUpdate a g q ∉ r.trace) ∧
    (optStrTruthy options.devServerTarget = false →
      ∀ s u, Effect.resolveDevServerTarget s ∉ r.trace ∧
        Effect.setBaseUrl u ∉ r.trace) ∧
    (optStrTruthy options.devServerTarget = false → options.webdriverUpdate = false →
      ∃ p c, Effect.forkProtractor p c ∈ r.trace) ∧
    r.output.events.length ≤ 1 := by
  unfold ProtractorBuilder.run at hok
  split at hok
  · exact absurd hok (by simp)
  split at hok
  · next hdev =>
    rw [Except.ok.injEq] at hok
    subst hok
    refine ⟨?_, ?_, ?_, ?_, ?_⟩
    · cases hev : env.devServer.events with
      | nil => exact List.pairwise_singleton _ _
      | cons ev rest =>
        cases rest with
        | nil =>
          rw [List.pairwise_cons]
          exact ⟨fun b _ => Nat.zero_le _, processDevEvents_single_pairwise env root options ev⟩
        | cons ev2 rest2 => rw [hev] at hlen; simp at hlen
    · intro hw s a g q
      constructor <;> intro hmem <;> rcases List.mem_cons.mp hmem with h | h
      · exact absurd h (by simp)
      · rcases processDevEvents_effect env root _ options h with ⟨u, h1⟩ | ⟨hwu, _⟩ | ⟨o, h1, _⟩
        · exact absurd h1 (by simp)
        · rw [hw] at hwu; exact absurd hwu (by simp)
        · exact absurd h1 (by simp)
      · exact absurd h (by simp)
      · rcases processDevEvents_effect env root _ options h with ⟨u, h1⟩ | ⟨hwu, _⟩ | ⟨o, h1, _⟩
        · exact absurd h1 (by simp)
        · rw [hw] at hwu; exact absurd hwu (by simp)
        · exact absurd h1 (by simp)
    · intro hfalse
      rw [hfalse] at hdev
      exact absurd hdev (by simp)
    · intro hfalse
      rw [hfalse] at hdev
      exact absurd hdev (by simp)
    · exact processDevEvents_output_len env root _ options
  · next hdev =>
    rw [Except.ok.injEq] at hok
    subst hok
    refine ⟨processAfterDevStage_pairwise env root options, ?_, ?_, ?_,
      processAfterDevStage_output_len env root options⟩
    · intro hw s a g q
      constructor <;> intro hmem <;>
        rcases processAfterDevStage_effect env root options hmem with ⟨hwu, _⟩ | h1
      · rw [hw] at hwu; exact absurd hwu (by simp)
      · exact absurd h1 (by simp)
      · rw [hw] at hwu; exact absurd hwu (by simp)
      · exact absurd h1 (by simp)
    · intro _ s u
      constructor <;> intro hmem <;>
        rcases processAfterDevStage_effect env root options hmem with ⟨_, h1 | h1 | h1⟩ | h1 <;>
        exact absurd h1 (by simp)
    · intro _ hw
      rw [processAfterDevStage_noUpdate env root options hw]
      exact ⟨_, _, stage3Loop_fork_mem env root options () []⟩

/-- The run result of the localhost scenario with the update step disabled. -/
def rNoUpdate : RunResult :=
  ⟨[Effect.resolveDevServerTarget "app:serve",
    Effect.setBaseUrl "http://localhost:4200",
    Effect.forkProtractor (resolvePath "root" "conf.js")
      ⟨false, "http://localhost:4200", none, none⟩],
   { optsLocal with baseUrl := "http://localhost:4200" },
   ⟨[⟨true, none⟩], none⟩⟩

theorem protractor_C6_witness :
    List.Pairwise phaseLE rNoUpdate.trace ∧ rNoUpdate.output.events.length ≤ 1 :=
  ⟨(protractor_C6 envLocal "root" optsLocal rNoUpdate (by decide) (by rfl)).1,
   (protractor_C6 envLocal "root" optsLocal rNoUpdate (by decide) (by rfl)).2.2.2.2⟩

/-- C7: the webdriver update stage probes exactly the two installation
layouts in order — the deep import nested under protractor's own
node_modules first, then the same deep import as a top-level module — uses
the first that resolves, and when both probes fail it fails with the error
whose message instructs the caller to update webdriver-manager manually and
re-run with the update step disabled (the message names the manual update
and the flag that disables the step). -/
theorem protractor_C7 (env : Env) :
    (updateWebdriverStage env).1.head? = some (Effect.probeWebdriver nestedWebdriverImport) ∧
    (env.nestedWebdriverResolves = true →
      updateWebdriverStage env =
        ([Effect.probeWebdriver nestedWebdriverImport,
          Effect.runWebdriverUpdate false false true], env.webdriverUpdateEvents)) ∧
    (env.nestedWebdriverResolves = false → env.topWebdriverResolves = true →
      updateWebdriverStage env =
        ([Effect.probeWebdriver nestedWebdriverImport,
          Effect.probeWebdriver webdriverDeepImport,
          Effect.runWebdriverUpdate false false true], env.webdriverUpdateEvents)) ∧
    (env.nestedWebdriverResolves = false → env.topWebdriverResolves = false →
      updateWebdriverStage env =
        ([Effect.probeWebdriver nestedWebdriverImport,
          Effect.probeWebdriver webdriverDeepImport],
         ⟨[], some webdriverNotFoundMessage⟩)) ∧
    webdriverNotFoundMessage =
      "Cannot automatically find webdriver-manager to update.\n" ++
      "Update webdriver-manager manually and run 'ng e2e --no-webdriver-update' instead." := by
  refine ⟨?_, fun hn => ?_, fun hn ht => ?_, fun hn ht => ?_, rfl⟩
  · unfold updateWebdriverStage
    split
    · rfl
    · split <;> rfl
  · unfold updateWebdriverStage
    rw [requireProjectModule_nested, hn]
    simp
  · unfold updateWebdriverStage
    rw [requireProjectModule_nested, hn, requireProjectModule_top, ht]
    simp
  · unfold updateWebdriverStage
    rw [requireProjectModule_nested, hn, requireProjectModule_top, ht]
    simp

/-- Environment in which neither webdriver-manager layout resolves. -/
def envNoWebdriver : Env :=
  ⟨⟨none, false⟩, ⟨[⟨true, none⟩], none⟩, false, false, ⟨[()], none⟩,
   ⟨[⟨true, none⟩], none⟩⟩

theorem protractor_C7_witness :
    updateWebdriverStage envNoWebdriver =
      ([Effect.probeWebdriver nestedWebdriverImport,
        Effect.probeWebdriver webdriverDeepImport],
       ⟨[], some webdriverNotFoundMessage⟩) :=
  (protractor_C7 envNoWebdriver).2.2.2.1 rfl rfl

/-- C8: every protractor fork recorded by a run carries the resolved
absolute path to the protractor configuration file and a secondary
configuration containing exactly the computed or given fields:
elementExplorer and suite as given, specs equal to the given list when
non-empty and unset when empty, and baseUrl as currently held in the shared
options — either still the caller-supplied value or the value written by a
recorded base-URL write. -/
theorem protractor_C8 (env : Env) (root : String)
    (options : ProtractorBuilderOptions) (r : RunResult)
    (p : String) (cfg : AdditionalProtractorConfig)
    (hok : ProtractorBuilder.run env root options = Except.ok r)
    (hmem : Effect.forkProtractor p cfg ∈ r.trace) :
    p = resolvePath root options.protractorConfig ∧
    cfg.elementExplorer = options.elementExplorer ∧
    cfg.suite = options.suite ∧
    cfg.specs = (if options.specs = [] then none else some options.specs) ∧
    (cfg.baseUrl = options.baseUrl ∨ Effect.setBaseUrl cfg.baseUrl ∈ r.trace) := by
  unfold ProtractorBuilder.run at hok
  split at hok
  · exact absurd hok (by simp)
  split at hok <;> rw [Except.ok.injEq] at hok <;> subst hok
  · rcases List.mem_cons.mp hmem with h | h
    · exact absurd h (by simp)
    · rcases processDevEvents_effect env root _ options h with
        ⟨u, h1⟩ | ⟨_, h1 | h1 | h1⟩ | ⟨o, h1, ho⟩
      · exact absurd h1 (by simp)
      · exact absurd h1 (by simp)
      · exact absurd h1 (by simp)
      · exact absurd h1 (by simp)
      · simp only [Effect.forkProtractor.injEq] at h1
        rcases h1 with ⟨hp, hc⟩
        refine ⟨hp, ?_, ?_, ?_, ?_⟩
        · rw [hc, ho]; rfl
        · rw [hc, ho]; rfl
        · rw [hc, ho]
          simp [mkAdditionalProtractorConfig, List.length_eq_zero]
        · rcases processDevEvents_fork_baseUrl env root _ options h with hb | hb
          · exact Or.inl hb
          · exact Or.inr (List.mem_cons_of_mem _ hb)
  · rcases processAfterDevStage_effect env root options hmem with ⟨_, h1 | h1 | h1⟩ | h1
    · exact absurd h1 (by simp)
    · exact absurd h1 (by simp)
    · exact absurd h1 (by simp)
    · simp only [Effect.forkProtractor.injEq] at h1
      rcases h1 with ⟨hp, hc⟩
      refine ⟨hp, ?_, ?_, ?_, Or.inl ?_⟩ <;> rw [hc]
      · rfl
      · rfl
      · simp [mkAdditionalProtractorConfig, List.length_eq_zero]
      · rfl

theorem protractor_C8_witness :
    resolvePath "root" "conf.js" = resolvePath "root" optsLocal.protractorConfig ∧
    (false : Bool) = optsLocal.elementExplorer ∧
    (none : Option String) = optsLocal.suite ∧
    (none : Option (List String)) = (if optsLocal.specs = [] then none else some optsLocal.specs) ∧
    (("http://localhost:4200" : String) = optsLocal.baseUrl ∨
      Effect.setBaseUrl "http://localhost:4200" ∈ rNoUpdate.trace) :=
  protractor_C8 envLocal "root" optsLocal rNoUpdate
    (resolvePath "root" "conf.js") ⟨false, "http://localhost:4200", none, none⟩
    (by rfl) (by decide)

/-- C9: whenever the webdriver update entry point is invoked, it is invoked
with exactly the fixed configuration standalone false, gecko false, quiet
true, independent of any caller-supplied option. -/
theorem protractor_C9 (env : Env) (root : String)
    (options : ProtractorBuilderOptions) (r : RunResult) (s g q : Bool)
    (hok : ProtractorBuilder.run env root options = Except.ok r)
    (hmem : Effect.runWebdriverUpdate s g q ∈ r.trace) :
    s = false ∧ g = false ∧ q = true := by
  unfold ProtractorBuilder.run at hok
  split at hok
  · exact absurd hok (by simp)
  split at hok <;> rw [Except.ok.injEq] at hok <;> subst hok
  · rcases List.mem_cons.mp hmem with h | h
    · exact absurd h (by simp)
    · rcases processDevEvents_effect env root _ options h with
        ⟨u, h1⟩ | ⟨_, h1 | h1 | h1⟩ | ⟨o, h1, _⟩
      · exact absurd h1 (by simp)
      · exact absurd h1 (by simp)
      · exact absurd h1 (by simp)
      · simpa using h1
      · exact absurd h1 (by simp)
  · rcases processAfterDevStage_effect env root options hmem with ⟨_, h1 | h1 | h1⟩ | h1
    · exact absurd h1 (by simp)
    · exact absurd h1 (by simp)
    · simpa using h1
    · exact absurd h1 (by simp)

/-- The run result of the failed-build scenario, whose trace contains the
fixed-flag update invocation. -/
def rFailedBuild : RunResult :=
  ⟨[Effect.resolveDevServerTarget "app:serve",
    Effect.probeWebdriver nestedWebdriverImport,
    Effect.runWebdriverUpdate false false true,
    Effect.forkProtractor (resolvePath "root" "conf.js") ⟨false, "", none, none⟩],
   optsFailedBuild, ⟨[⟨true, none⟩], none⟩⟩

theorem protractor_C9_witness :
    (false : Bool) = false ∧ (false : Bool) = false ∧ (true : Bool) = true :=
  protractor_C9 envFailedBuild "root" optsFailedBuild rFailedBuild false false true
    (by rfl) (by decide)

/-- C10: the mutual-exclusivity check is truthiness based, not presence
based. A non-empty devServerTarget together with an empty-string baseUrl
raises no conflict and the dev-server path runs (the target resolution is
recorded); symmetrically, a devServerTarget equal to the empty string is
treated as unset — no conflict even with baseUrl set, and the dev-server
stage is skipped (no target resolution in the trace). -/
theorem protractor_C10 (env : Env) (root : String)
    (o1 o2 : ProtractorBuilderOptions) (t : String)
    (h1d : o1.devServerTarget = some t) (h1t : t ≠ "") (h1b : o1.baseUrl = "")
    (h2d : o2.devServerTarget = some "") :
    (∃ r, ProtractorBuilder.run env root o1 = Except.ok r ∧
      Effect.resolveDevServerTarget t ∈ r.trace) ∧
    (∃ r, ProtractorBuilder.run env root o2 = Except.ok r ∧
      ∀ s, Effect.resolveDevServerTarget s ∉ r.trace) := by
  constructor
  · rw [run_devServer_eq env root o1 h1d h1t (by rw [h1b]; rfl)]
    exact ⟨_, rfl, List.mem_cons_self _ _⟩
  · have hdev2 : optStrTruthy o2.devServerTarget = false := by rw [h2d]; rfl
    rw [run_noDevServer_eq env root o2 hdev2]
    refine ⟨_, rfl, fun s hmem => ?_⟩
    rcases processAfterDevStage_effect env root o2 hmem with ⟨_, h1 | h1 | h1⟩ | h1 <;>
      exact absurd h1 (by simp)

/-- Options whose devServerTarget is the empty string while baseUrl is set. -/
def optsEmptyTarget : ProtractorBuilderOptions :=
  ⟨"conf.js", some "", [], none, false, false, none, "localhost", "http://myhost:9000"⟩

/-- The run result of the empty-target scenario: the dev-server stage is
skipped and protractor runs directly. -/
def rSkipped : RunResult :=
  ⟨[Effect.forkProtractor (resolvePath "root" "conf.js")
      ⟨false, "http://myhost:9000", none, none⟩],
   optsEmptyTarget, ⟨[⟨true, none⟩], none⟩⟩

theorem protractor_C10_witness :
    Effect.resolveDevServerTarget "app:serve" ∈ rNoUpdate.trace ∧
    Effect.resolveDevServerTarget "" ∉ rSkipped.trace := by
  have h := protractor_C10 envLocal "root" optsLocal optsEmptyTarget "app:serve"
    rfl (by decide) rfl rfl
  constructor
  · rcases h.1 with ⟨r, hr, hmem⟩
    have hr2 : ProtractorBuilder.run envLocal "root" optsLocal = Except.ok rNoUpdate := rfl
    rw [hr2, Except.ok.injEq] at hr
    rwa [← hr] at hmem
  · rcases h.2 with ⟨r, hr, hall⟩
    have hr2 : ProtractorBuilder.run envLocal "root" optsEmptyTarget = Except.ok rSkipped := rfl
    rw [hr2, Except.ok.injEq] at hr
    rw [hr]
    exact hall ""
